import Mathlib

/-!
Verification development for the NextLevelInfrastructure dhcpserver
observability plugins (responsestats and requeststats).

The DHCPv6 data model below is a shallow embedding of the Go code in
responsestats/plugin.go: identity associations (IA_NA, IA_TA, IA_PD)
are modelled as a tagged record carrying the 4-byte IAID, the granted
addresses, the granted prefixes and the attached status codes; a DHCPv6
client message is a message-type label plus an ordered option list.
-/

/-- Kind tag of an identity association: OptIANA, OptIATA or OptIAPD. -/
inductive IAKind where
  | iana
  | iata
  | iapd
deriving DecidableEq

/-- Status codes attached by AddStatusUnavailable: iana.StatusNoAddrsAvail
or iana.StatusNoPrefixAvail. -/
inductive StatusCode where
  | noAddrsAvail
  | noPrefixAvail
deriving DecidableEq

/-- An identity association option (the common shape behind OptIANA, OptIATA
and OptIAPD in responsestats/plugin.go).  `iaid` is the 4-byte identifier
(IaId), `addresses` the granted IAAddress options, `prefixes` the granted
IAPrefix options, `statuses` the OptStatusCode options. -/
structure IA where
  kind : IAKind
  iaid : List Nat
  addresses : List (List Nat)
  prefixes : List (List Nat)
  statuses : List StatusCode
deriving DecidableEq

/-- Allocated(): OptIANA and OptIATA test Options.OneAddress() != nil
(first IAAddress present); OptIAPD tests len(Options.Prefixes()) > 0. -/
def IA.allocated (ia : IA) : Bool :=
  match ia.kind with
  | .iapd => 0 < ia.prefixes.length
  | _ => !ia.addresses.isEmpty

/-- New(iaid): builds a fresh IA of the same concrete kind as the receiver, holding
only the given IaId (e.g. &OptIANA\x7bIaId: iaid\x7d). -/
def IA.new (ia : IA) (iaid : List Nat) : IA :=
  { kind := ia.kind, iaid := iaid, addresses := [], prefixes := [], statuses := [] }

/-- Status code appended by AddStatusUnavailable, selected by kind:
NoPrefixAvail for OptIAPD, NoAddrsAvail for OptIANA and OptIATA. -/
def statusFor : IAKind → StatusCode
  | .iapd => .noPrefixAvail
  | _ => .noAddrsAvail

/-- AddStatusUnavailable(): Options.Add appends the kind-appropriate
OptStatusCode to the option list. -/
def IA.addStatusUnavailable (ia : IA) : IA :=
  { ia with statuses := ia.statuses ++ [statusFor ia.kind] }

/-- A DHCPv6 option as seen by the plugin: either an identity association
or some other option (code and payload abstracted). -/
inductive Option6 where
  | ia (a : IA)
  | other (code : Nat) (payload : List Nat)
deriving DecidableEq

/-- A DHCPv6 client message (dhcpv6.Message): its MessageType as rendered
by the String() method of the library, and its ordered option list. -/
structure Message where
  msgTypeLabel : String
  options : List Option6
deriving DecidableEq

/-- Message.AddOption: Options.Add appends the option at the end. -/
def Message.addOption (m : Message) (o : Option6) : Message :=
  { m with options := m.options ++ [o] }

/-- Selector used by Options.IANA() / IATA() / IAPD(): keep an option iff it
is an identity association of the given kind. -/
def optIAofKind (k : IAKind) : Option6 → Option IA
  | .ia a => if a.kind = k then some a else none
  | .other _ _ => none

/-- Options.IANA() / IATA() / IAPD(): the identity associations of the given
kind, in option order. -/
def Message.iasOfKind (m : Message) (k : IAKind) : List IA :=
  m.options.filterMap (optIAofKind k)

/-- Loop body of ia_fixup: for each request IA, linearly scan the response
IAs for the first entry with byte-equal IaId (bytes.Compare == 0, with
break on the first hit); count satisfied/unsatisfied, and when no entry
matches, append a synthesized denial to the response message. -/
def ia_fixup_loop (response_ias : List IA) :
    List IA → Message → Nat → Nat → Nat → Message × Nat × Nat × Nat
  | [], resp, sat, unsat, news => (resp, sat, unsat, news)
  | reqia :: rest, resp, sat, unsat, news =>
    match response_ias.find? (fun respia => respia.iaid == reqia.iaid) with
    | some respia =>
      if respia.allocated then
        ia_fixup_loop response_ias rest resp (sat + 1) unsat news
      else
        ia_fixup_loop response_ias rest resp sat (unsat + 1) news
    | none =>
      ia_fixup_loop response_ias rest
        (resp.addOption (.ia ((reqia.new reqia.iaid).addStatusUnavailable)))
        sat (unsat + 1) (news + 1)

/-- ia_fixup from responsestats/plugin.go: reconcile the request IAs against
the response IAs, mutate the response by appending denial markers for
unmatched request IAs, and return the mutated response, the outcome
quantifier string and the number of appended status codes. -/
def ia_fixup (resp : Message) (request_ias response_ias : List IA) :
    Message × String × Nat :=
  match ia_fixup_loop response_ias request_ias resp 0 0 0 with
  | (resp2, sat, unsat, news) =>
    if unsat = 0 then (resp2, "all", news)
    else if sat = 0 then (resp2, "none", news)
    else (resp2, "some", news)

/-- First response entry whose IaId byte-equals the IaId of the request IA
(the inner scan of ia_fixup). -/
def firstMatch (response_ias : List IA) (reqia : IA) : Option IA :=
  response_ias.find? (fun respia => respia.iaid == reqia.iaid)

/-- A request IA is satisfied iff its first IaId match in the response is
allocated. -/
def satP (response_ias : List IA) (reqia : IA) : Bool :=
  match firstMatch response_ias reqia with
  | some respia => respia.allocated
  | none => false

/-- A request IA has no IaId match at all among the response IAs. -/
def notFoundP (response_ias : List IA) (reqia : IA) : Bool :=
  (firstMatch response_ias reqia).isNone

/-- The denial marker ia_fixup synthesizes for an unmatched request IA. -/
def mkDenial (reqia : IA) : IA :=
  (reqia.new reqia.iaid).addStatusUnavailable

/-- The options ia_fixup appends to the response message, in order. -/
def denialOpts (response_ias reqs : List IA) : List Option6 :=
  (reqs.filter (fun r => notFoundP response_ias r)).map
    (fun r => Option6.ia (mkDenial r))

/-- The quantifier selection at the end of ia_fixup. -/
def quantifierOf (sat unsat : Nat) : String :=
  if unsat = 0 then "all" else if sat = 0 then "none" else "some"

/-- Concrete 4-byte identifier A, for witnesses. -/
def idA : List Nat := [0, 0, 0, 1]

/-- Concrete 4-byte identifier B, for witnesses. -/
def idB : List Nat := [0, 0, 0, 2]

/-- Concrete 4-byte identifier C, for witnesses. -/
def idC : List Nat := [0, 0, 0, 3]

/-- Request IA_NA with identifier A. -/
def rqIaA : IA := ⟨.iana, idA, [], [], []⟩

/-- Request IA_NA with identifier B. -/
def rqIaB : IA := ⟨.iana, idB, [], [], []⟩

/-- Request IA_NA with identifier C. -/
def rqIaC : IA := ⟨.iana, idC, [], [], []⟩

/-- Response IA_NA with identifier A carrying one granted address. -/
def rsIaA : IA := ⟨.iana, idA, [[32, 1, 13, 184, 0, 0, 0, 0, 0, 0, 0, 0, 0, 0, 0, 1]], [], []⟩

/-- Response IA_NA with identifier B carrying no granted resource. -/
def rsIaB : IA := ⟨.iana, idB, [], [], []⟩

/-- A second, unallocated response IA_NA duplicating identifier A. -/
def rsIaAdup : IA := ⟨.iana, idA, [], [], []⟩

/-- A concrete response message holding the A (allocated) and B
(unallocated) response IAs. -/
def mResp : Message := ⟨"REPLY", [Option6.ia rsIaA, Option6.ia rsIaB]⟩

/-- A concrete response message with no identity associations. -/
def mEmpty : Message := ⟨"REPLY", [Option6.other 1 [0, 1]]⟩

/-- A DHCPv6 packet (the dhcpv6.DHCPv6 interface): either a client
message (*dhcpv6.Message) or a relay envelope (*dhcpv6.RelayMessage)
wrapping one inner packet via OptRelayMsg. -/
inductive DHCPv6 where
  | msg (m : Message)
  | relay (inner : DHCPv6)
deriving DecidableEq

/-- IsRelay(): true exactly on relay envelopes. -/
def DHCPv6.isRelay : DHCPv6 → Bool
  | .msg _ => false
  | .relay _ => true

/-- Counter increments and log emissions performed by the plugins, in
program order.  Constructors starting with rs belong to responsestats
(dhcpv6_responses_total, dhcpv6_ias_processed_total, dhcpv4_responses_total,
dhcpv4_leases_processed_total, the relay totals and the Logger calls);
constructors starting with rq belong to requeststats
(dhcpv6_requests_total, dhcpv6_requested_ias_total, dhcpv4_requests_total,
dhcpv4_rai_missing_suboptions_total and the relay totals).  The payload of
rsLogSummary is the added-statuscode count of the response log line,
0 for the plain branch; the rendered response text is abstracted. -/
inductive Event where
  | rsV6types (label : String)
  | rsV6relay
  | rsV6processed (iatype : String) (result : String)
  | rsV4types (label : String)
  | rsV4processed (result : String)
  | rsV4relay
  | rsLog (line : String)
  | rsLogSummary (addedStatuscodes : Nat)
  | rqV6types (label : String)
  | rqV6relay
  | rqV6ia (iatype : String) (count : Nat)
  | rqV4types (label : String)
  | rqV4relay
  | rqV4missing (suboption : String)
deriving DecidableEq

/-- Handler6 of responsestats: type-assert both packets as client
messages (on failure, count an error and signal drop), count the response
message type, then run ia_fixup for each IA kind present in the request,
threading the mutated response message, and finally log and return the
response with drop false.  Message.IsRelay() is constantly false in the
dhcpv6 library, so the relay-counter branch guarded by reqmsg.IsRelay()
after the successful cast never fires. -/
def rs_Handler6 (req resp : DHCPv6) : Option DHCPv6 × Bool × List Event :=
  match resp with
  | .relay _ => (none, true, [Event.rsV6types "error"])
  | .msg respmsg =>
    match req with
    | .relay _ => (none, true, [Event.rsV6types "error"])
    | .msg reqmsg =>
      let tEv : List Event := [Event.rsV6types respmsg.msgTypeLabel]
      let s1 :=
        if 0 < (reqmsg.iasOfKind .iana).length then
          let r := ia_fixup respmsg (reqmsg.iasOfKind .iana) (respmsg.iasOfKind .iana)
          (r.1, r.2.2, [Event.rsV6processed "IA_NA" r.2.1])
        else (respmsg, 0, ([] : List Event))
      let s2 :=
        if 0 < (reqmsg.iasOfKind .iata).length then
          let r := ia_fixup s1.1 (reqmsg.iasOfKind .iata) (s1.1.iasOfKind .iata)
          (r.1, r.2.2, [Event.rsV6processed "IA_TA" r.2.1])
        else (s1.1, 0, ([] : List Event))
      let s3 :=
        if 0 < (reqmsg.iasOfKind .iapd).length then
          let r := ia_fixup s2.1 (reqmsg.iasOfKind .iapd) (s2.1.iasOfKind .iapd)
          (r.1, r.2.2, [Event.rsV6processed "IA_PD" r.2.1])
        else (s2.1, 0, ([] : List Event))
      (some (.msg s3.1), false,
        tEv ++ s1.2.2 ++ s2.2.2 ++ s3.2.2 ++
          [Event.rsLogSummary (s1.2.1 + s2.2.1 + s3.2.1)])

/-- Modelled from the spec: the DecodeError of the RelayUnwrapper
contract.  The decapsulation functions used by requeststats Handler6
(dhcpv6.DecapsulateRelayIndex and RelayMessage.GetInnerMessage) belong to
the external dhcpv6 library and are not among the sources of this repository. -/
structure DecodeError where
  reason : String
deriving DecidableEq

/-- Modelled from the spec: the unwrap loop of the RelayUnwrapper — while
the packet is a relay envelope, replace it by its inner packet and
increment the depth, failing when the depth would exceed maxDepth. -/
def unwrapAux (maxDepth : Nat) : DHCPv6 → Nat → Except DecodeError (Message × Nat)
  | .msg m, depth => .ok (m, depth)
  | .relay inner, depth =>
    if maxDepth < depth + 1 then .error ⟨"malformed-envelope"⟩
    else unwrapAux maxDepth inner (depth + 1)

/-- Modelled from the spec: unwrap(msg, maxDepth) returns the innermost
client message together with the number of stripped envelopes, or a
DecodeError when the nesting exceeds maxDepth. -/
def unwrap (p : DHCPv6) (maxDepth : Nat) : Except DecodeError (Message × Nat) :=
  unwrapAux maxDepth p 0

/-- A chain of n relay envelopes around a client message. -/
def nest : Nat → Message → DHCPv6
  | 0, m => .msg m
  | n + 1, m => .relay (nest n m)

/-- Modelled from the spec: the decapsulation step of the RelayUnwrapper,
dhcpv6.DecapsulateRelayIndex with index -1, whose code is absent from
src.  It fails on a packet that is not a relay message, and otherwise
strips envelopes down to the innermost relay envelope (the call site
comment in part_000 reads: inner will be the innermost relay message).
Note this yields the innermost relay envelope, not the client message
inside it; a packet with no relay envelope cannot yield a relay
envelope, so on a plain client message the handler below fails at this
step or, under any alternative library behavior that returns the packet
unchanged, at the relay-message assertion that follows. -/
def decapsulateLast : DHCPv6 → Except DecodeError DHCPv6
  | .msg _ => .error ⟨"not-a-relay-message"⟩
  | .relay (.msg m) => .ok (.relay (.msg m))
  | .relay (.relay p) => decapsulateLast (.relay p)

/-- Modelled from the spec: RelayMessage.GetInnerMessage of the external
dhcpv6 library, absent from src — the client message carried inside a
relay envelope.  A corrupt envelope that cannot yield an inner message is
not representable in this model, since every modelled envelope wraps
exactly one inner packet (spec section 3). -/
def getInnerMessage : DHCPv6 → Except DecodeError Message
  | .msg m => .ok m
  | .relay p => getInnerMessage p

/-- Handler6 of requeststats (src/unnamed/part_000, lines 60-101): count
relay origin (for a non-relay packet the *dhcpv6.Message cast always
succeeds in this model, since every non-relay packet is a client
message), call DecapsulateRelayIndex with index -1, assert the result is
a relay message, extract its inner client message, count its type and
requested IAs per kind, and pass the response through.  Every failed
step increments the error type counter and drops the exchange. -/
def rq_Handler6 (req resp : DHCPv6) : Option DHCPv6 × Bool × List Event :=
  let relayEvs : List Event := if req.isRelay then [Event.rqV6relay] else []
  match decapsulateLast req with
  | .error _ => (none, true, relayEvs ++ [Event.rqV6types "error"])
  | .ok innermsg =>
    match innermsg with
    | .msg _ => (none, true, relayEvs ++ [Event.rqV6types "error"])
    | .relay p =>
      match getInnerMessage (.relay p) with
      | .error _ => (none, true, relayEvs ++ [Event.rqV6types "error"])
      | .ok m =>
        let iaEvs : List Event :=
          (if 0 < (m.iasOfKind .iana).length then
            [Event.rqV6ia "IA_NA" (m.iasOfKind .iana).length] else []) ++
          (if 0 < (m.iasOfKind .iata).length then
            [Event.rqV6ia "IA_TA" (m.iasOfKind .iata).length] else []) ++
          (if 0 < (m.iasOfKind .iapd).length then
            [Event.rqV6ia "IA_PD" (m.iasOfKind .iapd).length] else [])
        (some resp, false, relayEvs ++ [Event.rqV6types m.msgTypeLabel] ++ iaEvs)

/-- Relay Agent Information option: the three suboptions the plugins
read.  dhcpv4.GetString returns the empty string for an absent suboption,
so circuit-id and remote-id are plain strings; dhcpv4.GetIP returns nil
for an absent link-selection suboption, so it is an Option holding the
rendered IP. -/
structure RAI where
  circuitId : String
  remoteId : String
  linkSelection : Option String
deriving DecidableEq

/-- A DHCPv4 packet, restricted to the fields the two Handler4 functions
read.  msgType is the numeric DHCP message type (Ack = 5) and
msgTypeLabel its String() rendering; addresses are byte lists. -/
structure DHCPv4 where
  opCode : Nat
  clientHWAddr : String
  yourIPAddr : List Nat
  gatewayIPAddr : List Nat
  msgType : Nat
  msgTypeLabel : String
  rai : Option RAI
deriving DecidableEq

/-- net.IP.String() for the addresses appearing in log lines, rendered as
dot-separated decimal bytes. -/
def ipStr (ip : List Nat) : String :=
  String.intercalate "." (ip.map toString)

/-- net.IP.IsUnspecified: the all-zero IPv4 or IPv6 address. -/
def ipIsUnspecified (ip : List Nat) : Bool :=
  ip == [0, 0, 0, 0] || ip == List.replicate 16 0

/-- The interface label computed by responsestats Handler4: circuit-id if
non-empty, else remote-id if non-empty, else the sentinel string. -/
def interfaceLabel (rai : RAI) : String :=
  if rai.circuitId.length = 0 then
    if rai.remoteId.length = 0 then "<unspecified>" else rai.remoteId
  else rai.circuitId

/-- Handler4 of responsestats: for BootRequest requests, count the lease
outcome and response type and emit one log line (plain, giaddr-without-RAI,
or relay-context using the interface label); always return the response
unchanged with drop false. -/
def rs_Handler4 (req resp : DHCPv4) : DHCPv4 × Bool × List Event :=
  if req.opCode ≠ 1 then (resp, false, [])
  else
    let hasYiaddr := 0 < resp.yourIPAddr.length && !ipIsUnspecified resp.yourIPAddr
    let ev1 : List Event :=
      if resp.msgType == 5 && hasYiaddr then [Event.rsV4processed "all"] else []
    let ev2 : List Event := [Event.rsV4types resp.msgTypeLabel]
    match req.rai with
    | none =>
      let line :=
        if resp.gatewayIPAddr.isEmpty || ipIsUnspecified resp.gatewayIPAddr then
          "MAC " ++ req.clientHWAddr ++ " allocated " ++ ipStr req.yourIPAddr
        else
          "[giaddr=" ++ ipStr resp.gatewayIPAddr ++ " has no RAI] MAC " ++
            req.clientHWAddr ++ " allocated " ++ ipStr req.yourIPAddr
      (resp, false, ev1 ++ ev2 ++ [Event.rsLog line])
    | some rai =>
      (resp, false, ev1 ++ ev2 ++ [Event.rsV4relay,
        Event.rsLog ("[relay=" ++ ipStr req.gatewayIPAddr ++ " link=" ++
          rai.linkSelection.getD "" ++ " intf=" ++ interfaceLabel rai ++
          "] MAC " ++ req.clientHWAddr ++ " allocated " ++ ipStr req.yourIPAddr)])

/-- Handler4 of requeststats (src/unnamed/part_000): count request types,
relay usage and missing relay-agent suboptions; always return the
response unchanged with drop false. -/
def rq_Handler4 (req resp : DHCPv4) : DHCPv4 × Bool × List Event :=
  if req.opCode ≠ 1 then (resp, false, [Event.rqV4types "ignored"])
  else
    let ev0 : List Event := [Event.rqV4types req.msgTypeLabel]
    let giaddrInvalid := req.gatewayIPAddr.isEmpty || ipIsUnspecified req.gatewayIPAddr
    match req.rai with
    | none =>
      if !giaddrInvalid then
        (resp, false, ev0 ++ [Event.rqV4missing "RelayAgentInfo", Event.rqV4relay])
      else
        (resp, false, ev0)
    | some rai =>
      if giaddrInvalid then
        (resp, false, ev0 ++ [Event.rqV4missing "GatewayIPAddr", Event.rqV4relay])
      else
        let evLink : List Event :=
          if rai.linkSelection.isNone then
            [Event.rqV4missing "LinkSelectionSubOption"] else []
        let evAgent : List Event :=
          if rai.circuitId.isEmpty && rai.remoteId.isEmpty then
            [Event.rqV4missing "AgentIDSubOption"] else []
        (resp, false, ev0 ++ [Event.rqV4relay] ++ evLink ++ evAgent)

/-- The relay agent information used in the C9 witness: empty circuit-id,
remote-id eth0. -/
def raiEx : RAI := ⟨"", "eth0", none⟩

/-- A relayed DHCPv4 BootRequest for the C9 witness. -/
def req4Ex : DHCPv4 := ⟨1, "00:11:22:33:44:55", [192, 0, 2, 7], [10, 0, 0, 1], 3, "REQUEST", some raiEx⟩

/-- A DHCPv4 Ack response for the C9 witness. -/
def resp4Ex : DHCPv4 := ⟨2, "00:11:22:33:44:55", [192, 0, 2, 7], [10, 0, 0, 1], 5, "ACK", none⟩

/-- Characterization of the ia_fixup loop: the response gains exactly the
denial options for the unmatched requests, and the three counters advance
by the corresponding counts. -/
theorem ia_fixup_loop_spec (response_ias : List IA) (reqs : List IA) :
    ∀ (resp : Message) (sat unsat news : Nat),
    ia_fixup_loop response_ias reqs resp sat unsat news =
      ({ resp with options := resp.options ++ denialOpts response_ias reqs },
       sat + reqs.countP (satP response_ias),
       unsat + reqs.countP (fun r => !satP response_ias r),
       news + reqs.countP (notFoundP response_ias)) := by
  induction reqs with
  | nil =>
    intro resp sat unsat news
    simp [ia_fixup_loop, denialOpts]
  | cons r rest ih =>
    intro resp sat unsat news
    cases hfm : firstMatch response_ias r with
    | some respia =>
      have hfind : response_ias.find? (fun x => x.iaid == r.iaid) = some respia := hfm
      have hnf : notFoundP response_ias r = false := by
        simp [notFoundP, hfm]
      have hd : denialOpts response_ias (r :: rest) = denialOpts response_ias rest := by
        simp [denialOpts, hnf]
      have hc3 : (r :: rest).countP (notFoundP response_ias) =
          rest.countP (notFoundP response_ias) := by
        simp [List.countP_cons, hnf]
      cases hal : respia.allocated with
      | true =>
        have hsp : satP response_ias r = true := by simp [satP, hfm, hal]
        have hstep : ia_fixup_loop response_ias (r :: rest) resp sat unsat news =
            ia_fixup_loop response_ias rest resp (sat + 1) unsat news := by
          simp [ia_fixup_loop, hfind, hal]
        have hc1 : (r :: rest).countP (satP response_ias) =
            rest.countP (satP response_ias) + 1 := by
          simp [List.countP_cons, hsp]
        have hc2 : (r :: rest).countP (fun x => !satP response_ias x) =
            rest.countP (fun x => !satP response_ias x) := by
          simp [List.countP_cons, hsp]
        rw [hstep, ih]
        simp only [hd, hc1, hc2, hc3, Prod.mk.injEq, true_and, and_true]
        omega
      | false =>
        have hsp : satP response_ias r = false := by simp [satP, hfm, hal]
        have hstep : ia_fixup_loop response_ias (r :: rest) resp sat unsat news =
            ia_fixup_loop response_ias rest resp sat (unsat + 1) news := by
          simp [ia_fixup_loop, hfind, hal]
        have hc1 : (r :: rest).countP (satP response_ias) =
            rest.countP (satP response_ias) := by
          simp [List.countP_cons, hsp]
        have hc2 : (r :: rest).countP (fun x => !satP response_ias x) =
            rest.countP (fun x => !satP response_ias x) + 1 := by
          simp [List.countP_cons, hsp]
        rw [hstep, ih]
        simp only [hd, hc1, hc2, hc3, Prod.mk.injEq, true_and, and_true]
        omega
    | none =>
      have hfind : response_ias.find? (fun x => x.iaid == r.iaid) = none := hfm
      have hnf : notFoundP response_ias r = true := by
        simp [notFoundP, hfm]
      have hsp : satP response_ias r = false := by simp [satP, hfm]
      have hstep : ia_fixup_loop response_ias (r :: rest) resp sat unsat news =
          ia_fixup_loop response_ias rest
            (resp.addOption (.ia ((r.new r.iaid).addStatusUnavailable)))
            sat (unsat + 1) (news + 1) := by
        simp [ia_fixup_loop, hfind]
      have hd : denialOpts response_ias (r :: rest) =
          Option6.ia (mkDenial r) :: denialOpts response_ias rest := by
        simp [denialOpts, hnf, mkDenial]
      have hc1 : (r :: rest).countP (satP response_ias) =
          rest.countP (satP response_ias) := by
        simp [List.countP_cons, hsp]
      have hc2 : (r :: rest).countP (fun x => !satP response_ias x) =
          rest.countP (fun x => !satP response_ias x) + 1 := by
        simp [List.countP_cons, hsp]
      have hc3 : (r :: rest).countP (notFoundP response_ias) =
          rest.countP (notFoundP response_ias) + 1 := by
        simp [List.countP_cons, hnf]
      rw [hstep, ih]
      simp only [hd, hc1, hc2, hc3, Prod.mk.injEq, Message.addOption, mkDenial,
        List.append_assoc, List.cons_append, List.singleton_append,
        List.nil_append, true_and, and_true]
      omega

/-- Closed form of ia_fixup in terms of the loop characterization. -/
theorem ia_fixup_spec (resp : Message) (reqs resps : List IA) :
    ia_fixup resp reqs resps =
      ({ resp with options := resp.options ++ denialOpts resps reqs },
       quantifierOf (reqs.countP (satP resps))
         (reqs.countP (fun r => !satP resps r)),
       reqs.countP (notFoundP resps)) := by
  unfold ia_fixup
  rw [ia_fixup_loop_spec]
  simp only [Nat.zero_add]
  unfold quantifierOf
  by_cases h1 : reqs.countP (fun r => !satP resps r) = 0
  · rw [if_pos h1, if_pos h1]
  · rw [if_neg h1, if_neg h1]
    by_cases h2 : reqs.countP (satP resps) = 0
    · rw [if_pos h2, if_pos h2]
    · rw [if_neg h2, if_neg h2]

/-- Splitting a count between a predicate and its negation. -/
theorem countP_not_add (p : IA → Bool) (l : List IA) :
    l.countP p + l.countP (fun a => !p a) = l.length := by
  induction l with
  | nil => simp
  | cons a t ih =>
    cases h : p a <;> simp [List.countP_cons, h] <;> omega

/-- Searching an appended list when the front part has no hit. -/
theorem find?_append_of_none {α : Type} (p : α → Bool) {l₁ : List α}
    (h : l₁.find? p = none) (l₂ : List α) :
    (l₁ ++ l₂).find? p = l₂.find? p := by
  induction l₁ with
  | nil => simp
  | cons a t ih =>
    cases hpa : p a with
    | true =>
      rw [List.find?_cons_of_pos _ hpa] at h
      exact absurd h (by simp)
    | false =>
      rw [List.find?_cons_of_neg _ (by simp [hpa])] at h
      rw [List.cons_append, List.find?_cons_of_neg _ (by simp [hpa])]
      exact ih h

/-- C1: reconciliation completeness.  After ia_fixup runs on the request
IAs of a kind against the IAs of that kind in the response message, every
request identifier appears among the identifiers of the IAs of that kind
in the final response: either it matched an original response entry, or a
synthesized denial marker with that identifier was appended. -/
theorem reconcile_completeness (resp : Message) (k : IAKind) (reqs : List IA)
    (hk : ∀ a ∈ reqs, a.kind = k) :
    ∀ a ∈ reqs,
      a.iaid ∈ ((ia_fixup resp reqs (resp.iasOfKind k)).1.iasOfKind k).map IA.iaid := by
  intro a ha
  simp only [ia_fixup_spec]
  have hsplit :
      Message.iasOfKind
        { resp with options := resp.options ++ denialOpts (resp.iasOfKind k) reqs } k
      = resp.iasOfKind k ++ (denialOpts (resp.iasOfKind k) reqs).filterMap (optIAofKind k) := by
    simp [Message.iasOfKind, List.filterMap_append]
  rw [hsplit, List.map_append]
  cases hfm : firstMatch (resp.iasOfKind k) a with
  | some x =>
    have hfm' : (resp.iasOfKind k).find? (fun z => z.iaid == a.iaid) = some x := hfm
    have hx : x ∈ resp.iasOfKind k := List.mem_of_find?_eq_some hfm'
    have hpx := List.find?_some hfm'
    have hxa : x.iaid = a.iaid := eq_of_beq (by simpa using hpx)
    exact List.mem_append_left _ (hxa ▸ List.mem_map_of_mem IA.iaid hx)
  | none =>
    apply List.mem_append_right
    have hnf : notFoundP (resp.iasOfKind k) a = true := by simp [notFoundP, hfm]
    have hmem : Option6.ia (mkDenial a) ∈ denialOpts (resp.iasOfKind k) reqs := by
      apply List.mem_map_of_mem
      exact List.mem_filter.mpr ⟨ha, hnf⟩
    have hkind : (mkDenial a).kind = k := hk a ha
    have hin : mkDenial a ∈ (denialOpts (resp.iasOfKind k) reqs).filterMap (optIAofKind k) :=
      List.mem_filterMap.mpr ⟨Option6.ia (mkDenial a), hmem, by simp [optIAofKind, hkind]⟩
    have hiaid : (mkDenial a).iaid = a.iaid := rfl
    exact hiaid ▸ List.mem_map_of_mem IA.iaid hin

/-- C2: quantifier correctness.  For a non-empty request sequence the
quantifier is "none" when no request has its first identifier match in
the response allocated, "all" when every request has its first match
allocated, and "some" otherwise; the synthetic count is the number of
requests with no identifier match at all. -/
theorem quantifier_correct (resp : Message) (reqs resps : List IA) (h : reqs ≠ []) :
    (ia_fixup resp reqs resps).2.1 =
      (if reqs.countP (satP resps) = 0 then "none"
       else if reqs.countP (fun r => !satP resps r) = 0 then "all" else "some")
    ∧ (ia_fixup resp reqs resps).2.2 = reqs.countP (notFoundP resps) := by
  simp only [ia_fixup_spec]
  refine ⟨?_, trivial⟩
  have hlen : 0 < reqs.length := List.length_pos.mpr h
  have hsum := countP_not_add (satP resps) reqs
  unfold quantifierOf
  by_cases h1 : reqs.countP (fun r => !satP resps r) = 0
  · have h2 : ¬ reqs.countP (satP resps) = 0 := by omega
    rw [if_pos h1, if_neg h2, if_pos h1]
  · by_cases h2 : reqs.countP (satP resps) = 0
    · rw [if_neg h1, if_pos h2, if_pos h2]
    · rw [if_neg h1, if_neg h2, if_neg h2, if_neg h1]

/-- C2 witness: requests A, B, C against a response holding A allocated and
B unallocated give quantifier "some" and synthetic count 1 (for C). -/
theorem quantifier_correct_witness :
    ([rqIaA, rqIaB, rqIaC] : List IA) ≠ [] ∧
    (ia_fixup mResp [rqIaA, rqIaB, rqIaC] [rsIaA, rsIaB]).2.1 = "some" ∧
    (ia_fixup mResp [rqIaA, rqIaB, rqIaC] [rsIaA, rsIaB]).2.2 = 1 := by
  have h := quantifier_correct mResp [rqIaA, rqIaB, rqIaC] [rsIaA, rsIaB] (by simp)
  refine ⟨by simp, ?_, ?_⟩
  · rw [h.1]; rfl
  · rw [h.2]; rfl

/-- C1 witness: a request with identifier C reconciled against a response
with only A and B still ends with C present in the final reservation set. -/
theorem reconcile_completeness_witness :
    (∀ a ∈ ([rqIaC] : List IA), a.kind = IAKind.iana) ∧
    rqIaC.iaid ∈ ((ia_fixup mResp [rqIaC] (mResp.iasOfKind .iana)).1.iasOfKind .iana).map IA.iaid := by
  refine ⟨?_, reconcile_completeness mResp .iana [rqIaC] ?_ rqIaC (by simp)⟩
  · intro a hmem
    simp only [List.mem_singleton] at hmem
    rw [hmem]; rfl
  · intro a hmem
    simp only [List.mem_singleton] at hmem
    rw [hmem]; rfl

/-- C3: every denial marker appended by ia_fixup carries exactly the
identifier of the unmatched request IA it replaces, its kind, no granted
address or prefix, and the single status code selected by kind
(NoAddrsAvail for IA_NA and IA_TA, NoPrefixAvail for IA_PD); the returned
synthetic count equals the number of appended markers. -/
theorem denial_marker_shape (resp : Message) (reqs resps : List IA) :
    (ia_fixup resp reqs resps).1.options =
      resp.options ++ (reqs.filter (fun r => notFoundP resps r)).map
        (fun r => Option6.ia ⟨r.kind, r.iaid, [], [], [statusFor r.kind]⟩)
    ∧ (ia_fixup resp reqs resps).2.2 =
      ((reqs.filter (fun r => notFoundP resps r)).map
        (fun r => Option6.ia ⟨r.kind, r.iaid, [], [], [statusFor r.kind]⟩)).length := by
  constructor
  · simp only [ia_fixup_spec]
    rfl
  · simp only [ia_fixup_spec, List.length_map]
    rw [List.countP_eq_length_filter]

/-- C6: the first identifier match wins.  With a single request IA whose
identifier first matches entry r of the response sequence, everything
after r — duplicate identifiers included — is ignored: the result is the
same as if the response sequence ended at r, and the request is classified
solely by whether r is allocated. -/
theorem first_match_wins (resp : Message) (reqia r : IA) (pre rest : List IA)
    (hpre : pre.find? (fun x => x.iaid == reqia.iaid) = none)
    (hr : r.iaid = reqia.iaid) :
    ia_fixup resp [reqia] (pre ++ r :: rest) = ia_fixup resp [reqia] (pre ++ [r])
    ∧ (ia_fixup resp [reqia] (pre ++ r :: rest)).2.1 =
        (if r.allocated then "all" else "none") := by
  have hma : (r.iaid == reqia.iaid) = true := by simp [hr]
  have h1 : (pre ++ r :: rest).find? (fun x => x.iaid == reqia.iaid) = some r := by
    rw [find?_append_of_none _ hpre]
    exact List.find?_cons_of_pos _ hma
  have h2 : (pre ++ [r]).find? (fun x => x.iaid == reqia.iaid) = some r := by
    rw [find?_append_of_none _ hpre]
    exact List.find?_cons_of_pos _ hma
  have key : ∀ l : List IA, l.find? (fun x => x.iaid == reqia.iaid) = some r →
      ia_fixup resp [reqia] l = (resp, if r.allocated then "all" else "none", 0) := by
    intro l hl
    have hs : satP l reqia = r.allocated := by simp [satP, firstMatch, hl]
    have hn : notFoundP l reqia = false := by simp [notFoundP, firstMatch, hl]
    rw [ia_fixup_spec]
    cases har : r.allocated <;>
      simp [denialOpts, quantifierOf, hs, hn, har, List.countP_cons]
  have e1 := key _ h1
  have e2 := key _ h2
  exact ⟨e1.trans e2.symm, by rw [e1]⟩

/-- C6 witness: with request A, an allocated first match for A, and an
unallocated duplicate of A after it, the duplicate is ignored and the
request is classified by the first match (quantifier "all"). -/
theorem first_match_wins_witness :
    ([] : List IA).find? (fun x => x.iaid == rqIaA.iaid) = none ∧
    rsIaA.iaid = rqIaA.iaid ∧
    ia_fixup mResp [rqIaA] ([] ++ rsIaA :: [rsIaAdup]) =
      ia_fixup mResp [rqIaA] ([] ++ [rsIaA]) ∧
    (ia_fixup mResp [rqIaA] ([] ++ rsIaA :: [rsIaAdup])).2.1 =
      (if rsIaA.allocated then "all" else "none") := by
  have h := first_match_wins mResp rqIaA rsIaA [] [rsIaAdup] rfl rfl
  exact ⟨rfl, rfl, h.1, h.2⟩

/-- C7: uniqueness invariant.  If the request identifiers of a kind are
pairwise distinct and the identifiers of that kind in the response are pairwise
distinct, then after ia_fixup the response message never holds two IAs of
that kind with the same identifier: denials are appended only for
identifiers absent from the set of that kind held by the response. -/
theorem no_duplicate_ids (resp : Message) (k : IAKind) (reqs : List IA)
    (hk : ∀ a ∈ reqs, a.kind = k)
    (hreq : (reqs.map IA.iaid).Nodup)
    (hresp : ((resp.iasOfKind k).map IA.iaid).Nodup) :
    (((ia_fixup resp reqs (resp.iasOfKind k)).1.iasOfKind k).map IA.iaid).Nodup := by
  simp only [ia_fixup_spec]
  have hsplit :
      Message.iasOfKind
        { resp with options := resp.options ++ denialOpts (resp.iasOfKind k) reqs } k
      = resp.iasOfKind k ++ (denialOpts (resp.iasOfKind k) reqs).filterMap (optIAofKind k) := by
    simp [Message.iasOfKind, List.filterMap_append]
  have hden : (denialOpts (resp.iasOfKind k) reqs).filterMap (optIAofKind k) =
      (reqs.filter (fun x => notFoundP (resp.iasOfKind k) x)).map mkDenial := by
    unfold denialOpts
    rw [List.filterMap_map]
    have hcong : ∀ x ∈ reqs.filter (fun x => notFoundP (resp.iasOfKind k) x),
        (optIAofKind k ∘ fun x => Option6.ia (mkDenial x)) x = some (mkDenial x) := by
      intro x hxmem
      have hkx : x.kind = k := hk x (List.mem_of_mem_filter hxmem)
      simp [optIAofKind, mkDenial, IA.new, IA.addStatusUnavailable, hkx]
    rw [List.filterMap_congr hcong]
    induction reqs.filter (fun x => notFoundP (resp.iasOfKind k) x) with
    | nil => rfl
    | cons a t ih => simp [List.filterMap_cons, ih]
  have hdenids : ((reqs.filter (fun x => notFoundP (resp.iasOfKind k) x)).map mkDenial).map IA.iaid
      = (reqs.filter (fun x => notFoundP (resp.iasOfKind k) x)).map IA.iaid := by
    rw [List.map_map]
    exact List.map_congr_left (fun x _ => rfl)
  rw [hsplit, hden, List.map_append, hdenids]
  apply List.Nodup.append
  · exact hresp
  · exact hreq.sublist ((List.filter_sublist _).map _)
  · intro x hx1 hx2
    obtain ⟨y, hymem, hyeq⟩ := List.mem_map.mp hx1
    obtain ⟨z, hzmem, hzeq⟩ := List.mem_map.mp hx2
    have hnf : notFoundP (resp.iasOfKind k) z = true := (List.mem_filter.mp hzmem).2
    have hnone : (resp.iasOfKind k).find? (fun w => w.iaid == z.iaid) = none := by
      simpa [notFoundP, firstMatch, Option.isNone_iff_eq_none] using hnf
    have hzy := List.find?_eq_none.mp hnone y hymem
    apply hzy
    simp [hyeq, hzeq]

/-- C7 witness: request A, C against a response holding A and B leaves the
response with pairwise-distinct IA_NA identifiers. -/
theorem no_duplicate_ids_witness :
    (∀ a ∈ ([rqIaA, rqIaC] : List IA), a.kind = IAKind.iana) ∧
    (([rqIaA, rqIaC] : List IA).map IA.iaid).Nodup ∧
    ((mResp.iasOfKind .iana).map IA.iaid).Nodup ∧
    (((ia_fixup mResp [rqIaA, rqIaC] (mResp.iasOfKind .iana)).1.iasOfKind .iana).map IA.iaid).Nodup := by
  refine ⟨by decide, by decide, by decide, ?_⟩
  exact no_duplicate_ids mResp .iana [rqIaA, rqIaC] (by decide) (by decide) (by decide)

/-- C8: shape-mismatch drop.  When the request or the response is not a
client message (it is a relay envelope, so the *dhcpv6.Message type
assertion fails), Handler6 of responsestats emits exactly one error-type
counter increment, returns no response and signals drop; in particular no
reconciliation event and no denial synthesis happens. -/
theorem shape_mismatch_drop (req resp : DHCPv6)
    (h : req.isRelay = true ∨ resp.isRelay = true) :
    rs_Handler6 req resp = (none, true, [Event.rsV6types "error"]) := by
  cases resp with
  | relay inner => rfl
  | msg respmsg =>
    cases req with
    | relay inner => rfl
    | msg reqmsg =>
      rcases h with h | h <;> simp [DHCPv6.isRelay] at h

/-- C8 witness: a relay-envelope response is dropped with a single error
increment. -/
theorem shape_mismatch_drop_witness :
    ((DHCPv6.msg mEmpty).isRelay = true ∨ (DHCPv6.relay (.msg mResp)).isRelay = true) ∧
    rs_Handler6 (.msg mEmpty) (.relay (.msg mResp)) =
      (none, true, [Event.rsV6types "error"]) :=
  ⟨Or.inr rfl, shape_mismatch_drop (.msg mEmpty) (.relay (.msg mResp)) (Or.inr rfl)⟩

/-- C4: the code contradicts the claim.  On a plain (non-relay) client
message the request-side handler cannot succeed: decapsulation with
index -1 fails on non-relay input, and a packet carrying no relay
envelope could never pass the relay-message assertion either way, so the
handler increments the error type counter and drops the exchange —
whereas the spec contract (and the claim) promises success with the
message unchanged at depth 0, as the spec-modelled unwrap indeed does. -/
theorem plain_client_message_dropped (m : Message) (resp : DHCPv6) (maxDepth : Nat) :
    rq_Handler6 (.msg m) resp = (none, true, [Event.rqV6types "error"])
    ∧ unwrap (.msg m) maxDepth = .ok (m, 0) :=
  ⟨rfl, rfl⟩

/-- Successful unwinding of a nest of envelopes within the depth bound. -/
theorem unwrapAux_ok (maxDepth : Nat) (m : Message) :
    ∀ (N depth : Nat), depth + N ≤ maxDepth →
    unwrapAux maxDepth (nest N m) depth = .ok (m, depth + N) := by
  intro N
  induction N with
  | zero =>
    intro depth _
    simp [nest, unwrapAux]
  | succ n ih =>
    intro depth h
    have hc : ¬ maxDepth < depth + 1 := by omega
    have h2 : (depth + 1) + n ≤ maxDepth := by omega
    rw [show depth + (n + 1) = (depth + 1) + n by omega]
    simp only [nest, unwrapAux, if_neg hc]
    exact ih (depth + 1) h2

/-- Failing unwinding of a nest of envelopes beyond the depth bound. -/
theorem unwrapAux_err (maxDepth : Nat) (m : Message) :
    ∀ (N depth : Nat), 0 < N → maxDepth < depth + N →
    unwrapAux maxDepth (nest N m) depth = .error ⟨"malformed-envelope"⟩ := by
  intro N
  induction N with
  | zero =>
    intro depth h0 _
    exact absurd h0 (by omega)
  | succ n ih =>
    intro depth _ hgt
    by_cases hc : maxDepth < depth + 1
    · simp only [nest, unwrapAux, if_pos hc]
    · have hn : 0 < n := by omega
      have hgt2 : maxDepth < (depth + 1) + n := by omega
      simp only [nest, unwrapAux, if_neg hc]
      exact ih (depth + 1) hn hgt2

/-- C5: unwrap termination.  A chain of N nested relay envelopes unwraps
to the innermost client message in exactly N steps when N is within the
configured bound, and fails with the malformed-envelope DecodeError when
N exceeds the bound. -/
theorem unwrap_termination (N maxDepth : Nat) (m : Message) :
    (N ≤ maxDepth → unwrap (nest N m) maxDepth = .ok (m, N))
    ∧ (maxDepth < N → unwrap (nest N m) maxDepth = .error ⟨"malformed-envelope"⟩) := by
  constructor
  · intro h
    have := unwrapAux_ok maxDepth m N 0 (by omega)
    simpa [unwrap] using this
  · intro h
    have h0 : 0 < N := by omega
    have := unwrapAux_err maxDepth m N 0 h0 (by omega)
    simpa [unwrap] using this

/-- C5 witness: two envelopes unwrap in two steps under bound 3; four
envelopes exceed bound 3 and fail. -/
theorem unwrap_termination_witness :
    (2 ≤ 3 ∧ unwrap (nest 2 mEmpty) 3 = .ok (mEmpty, 2)) ∧
    (3 < 4 ∧ unwrap (nest 4 mEmpty) 3 = .error ⟨"malformed-envelope"⟩) :=
  ⟨⟨by omega, (unwrap_termination 2 3 mEmpty).1 (by omega)⟩,
   ⟨by omega, (unwrap_termination 4 3 mEmpty).2 (by omega)⟩⟩

/-- C10: the DHCPv4 response-side handler is a pure observer — it returns
the response object unchanged and never signals drop; no reconciliation
or denial synthesis exists on the protocol-variant-4 path. -/
theorem handler4_frame (req resp : DHCPv4) :
    (rs_Handler4 req resp).1 = resp ∧ (rs_Handler4 req resp).2.1 = false := by
  unfold rs_Handler4
  by_cases h : req.opCode ≠ 1
  · simp [h]
  · cases hr : req.rai <;> simp [h, hr]

/-- C9 (amended): the interface label resolves to the circuit-id when it
is non-empty, else to the remote-id when that is non-empty, else to the
sentinel string "<unspecified>"; and the missing-suboption report of the
request-side handler counts the interface identifier (AgentIDSubOption)
missing exactly when both circuit-id and remote-id are empty. -/
theorem interface_label_fallback (c r : String) (lnk : Option String)
    (req resp : DHCPv4)
    (hop : req.opCode = 1)
    (hrai : req.rai = some ⟨c, r, lnk⟩)
    (hgi : (req.gatewayIPAddr.isEmpty || ipIsUnspecified req.gatewayIPAddr) = false) :
    (c ≠ "" → interfaceLabel ⟨c, r, lnk⟩ = c)
    ∧ (c = "" → r ≠ "" → interfaceLabel ⟨c, r, lnk⟩ = r)
    ∧ (c = "" → r = "" → interfaceLabel ⟨c, r, lnk⟩ = "<unspecified>")
    ∧ (Event.rqV4missing "AgentIDSubOption" ∈ (rq_Handler4 req resp).2.2
        ↔ (c = "" ∧ r = "")) := by
  have hlen : ∀ s : String, s.length = 0 ↔ s = "" := by
    intro s
    constructor
    · intro h
      apply String.ext
      exact List.length_eq_zero.mp h
    · intro h
      subst h
      rfl
  refine ⟨?_, ?_, ?_, ?_⟩
  · intro hc
    have hc' : ¬ c.length = 0 := fun h => hc ((hlen c).mp h)
    simp [interfaceLabel, hc']
  · intro hc hr
    have hr' : ¬ r.length = 0 := fun h => hr ((hlen r).mp h)
    simp [interfaceLabel, hc, hr', hlen]
  · intro hc hr
    simp [interfaceLabel, hc, hr, hlen]
  · have hopc : ¬ req.opCode ≠ 1 := by simp [hop]
    have hiff : ((String.isEmpty c && String.isEmpty r) = true) ↔ (c = "" ∧ r = "") := by
      simp [String.isEmpty_iff]
    rw [← hiff]
    by_cases hag : (String.isEmpty c && String.isEmpty r) = true
    · cases lnk <;> simp [rq_Handler4, hopc, hrai, hgi, hag]
    · cases lnk <;> simp [rq_Handler4, hopc, hrai, hgi, hag]

/-- C9 counterexample: when both circuit-id and remote-id are empty the
sentinel of the code is the string "<unspecified>", not "unspecified". -/
theorem interface_label_counterexample :
    interfaceLabel ⟨"", "", none⟩ = "<unspecified>" ∧
    interfaceLabel ⟨"", "", none⟩ ≠ "unspecified" := by
  exact ⟨rfl, by decide⟩

/-- C9 witness: circuit-id empty and remote-id eth0 give label eth0
and no interface-identifier missing report. -/
theorem interface_label_fallback_witness :
    req4Ex.opCode = 1 ∧ req4Ex.rai = some ⟨"", "eth0", none⟩ ∧
    (req4Ex.gatewayIPAddr.isEmpty || ipIsUnspecified req4Ex.gatewayIPAddr) = false ∧
    interfaceLabel ⟨"", "eth0", none⟩ = "eth0" ∧
    ¬ Event.rqV4missing "AgentIDSubOption" ∈ (rq_Handler4 req4Ex resp4Ex).2.2 := by
  have h := interface_label_fallback "" "eth0" none req4Ex resp4Ex rfl rfl (by decide)
  refine ⟨rfl, rfl, by decide, h.2.1 rfl (by decide), ?_⟩
  intro hmem
  exact absurd ((h.2.2.2).mp hmem).2 (by decide)
